import Mathlib

/-!
Shallow embedding of the line-detection pipeline (Line_detection.py, the
base variant, and line_follower_main.py, the extended variant): the
configuration store, the producer's parameter publishing, the guarded
shared parameter set, the frame hand-off queue, and the two-thread
capture/processing loops.
-/

namespace LineFollower

/-- Keys of the persisted JSON configuration and of the shared parameter
dictionary.  `extra n` stands for any further key a persisted file might
contain (the Python dicts are string-keyed; only these six names are ever
looked up by the program). -/
inductive Key where
  | min_val
  | max_val
  | hough_threshold
  | min_line_length
  | max_line_gap
  | rho
  | extra (n : ℕ)
deriving DecidableEq

/-- A JSON value: a number (JSON integers and floats, modelled exactly as
rationals) or any non-numeric value (string, list, nested object, null). -/
inductive JVal where
  | num (q : ℚ)
  | other
deriving DecidableEq

/-- A JSON object / Python dict: association list in insertion order. -/
abbrev JObj := List (Key × JVal)

/-- `config[k]`, as an `Option` (a missing key raises `KeyError` in Python;
callers of this model handle `none` accordingly). -/
def lookupKey : JObj → Key → Option JVal
  | [], _ => none
  | (k1, v) :: rest, k => if k1 = k then some v else lookupKey rest k

/-- `config[k] = v` on a Python dict: overwrite in place when the key
exists, append otherwise. -/
def insertKey : JObj → Key → JVal → JObj
  | [], k, v => [(k, v)]
  | (k1, v1) :: rest, k, v =>
      if k1 = k then (k, v) :: rest else (k1, v1) :: insertKey rest k v

/-- State of the persisted `config.json`: absent (`os.path.isfile` false),
present but raising on open or on `json.load` (including a parse to a
non-object, where every subsequent access raises and is caught the same
way), or present with object content `j`. -/
inductive FileState where
  | absent
  | unreadable
  | content (j : JObj)
deriving DecidableEq

/-! ### Configuration store, base variant (Line_detection.py) -/

/-- Hard-coded `default_config` of `load_config` in Line_detection.py. -/
def default_config_base : JObj :=
  [(Key.min_val, JVal.num 0), (Key.max_val, JVal.num 255)]

/-- The validation of Line_detection.py, line 19:
`0 <= config["min_val"] <= 255 and 0 <= config["max_val"] <= 255`.
A missing key (`KeyError`) or a non-numeric value (`TypeError`) raises
inside the `try` and is caught by the `except`, landing in the same
default branch as an out-of-range value, so both are folded into `false`
here (Python short-circuits the `and`; the final result is identical). -/
def base_valid (j : JObj) : Bool :=
  match lookupKey j Key.min_val, lookupKey j Key.max_val with
  | some (JVal.num mn), some (JVal.num mx) =>
      decide (0 ≤ mn) && decide (mn ≤ 255) && decide (0 ≤ mx) && decide (mx ≤ 255)
  | _, _ => false

/-- `load_config` of Line_detection.py: returns the loaded dict itself when
the validation passes, the hard-coded defaults in every other case. -/
def load_config_base (fs : FileState) : JObj :=
  match fs with
  | FileState.absent => default_config_base
  | FileState.unreadable => default_config_base
  | FileState.content j => if base_valid j then j else default_config_base

/-! ### Configuration store, extended variant (line_follower_main.py) -/

/-- Hard-coded `default_config` of `load_config` in line_follower_main.py. -/
def default_config_ext : JObj :=
  [(Key.min_val, JVal.num 0), (Key.max_val, JVal.num 255),
   (Key.hough_threshold, JVal.num 50), (Key.min_line_length, JVal.num 10),
   (Key.max_line_gap, JVal.num 5), (Key.rho, JVal.num 1)]

/-- The required keys, i.e. the keys of `default_config`. -/
def extKeys : List Key :=
  [Key.min_val, Key.max_val, Key.hough_threshold, Key.min_line_length,
   Key.max_line_gap, Key.rho]

/-- The validation of line_follower_main.py, line 24:
`all(key in config for key in default_config)` — key presence only. -/
def hasAllKeys (j : JObj) : Bool :=
  extKeys.all fun k => (lookupKey j k).isSome

/-- `load_config` of line_follower_main.py: returns the loaded dict itself
when every required key is present, the hard-coded defaults otherwise. -/
def load_config_ext (fs : FileState) : JObj :=
  match fs with
  | FileState.absent => default_config_ext
  | FileState.unreadable => default_config_ext
  | FileState.content j => if hasAllKeys j then j else default_config_ext

/-! ### Saving -/

/-- The dict written by `save_config(min_val, max_val)` of
Line_detection.py. -/
def save_config_base (min_val max_val : ℚ) : JObj :=
  [(Key.min_val, JVal.num min_val), (Key.max_val, JVal.num max_val)]

/-- The dict written by `save_config(config)` of line_follower_main.py:
`json.dump(config, file)` writes exactly the in-memory mapping. -/
def save_config_ext (config : JObj) : JObj := config

/-- Outcome of the underlying file write (`open(..., "w")` / `json.dump`). -/
inductive WriteOutcome where
  | ok
  | failure (msg : String)

/-- Effect of calling `save_config` in Line_detection.py under a given
write outcome.  The source has no `try`/`except`, so a raising write
propagates out of `save_config` unchanged (modelled as `Except.error`). -/
def save_config_base_run (min_val max_val : ℚ) (w : WriteOutcome) :
    Except String FileState :=
  match w with
  | WriteOutcome.ok => Except.ok (FileState.content (save_config_base min_val max_val))
  | WriteOutcome.failure m => Except.error m

/-- Effect of calling `save_config` in line_follower_main.py under a given
write outcome; likewise no handler in the source. -/
def save_config_ext_run (config : JObj) (w : WriteOutcome) :
    Except String FileState :=
  match w with
  | WriteOutcome.ok => Except.ok (FileState.content (save_config_ext config))
  | WriteOutcome.failure m => Except.error m

/-! ### Producer parameter publishing -/

/-- One reading of the settings trackbars (`cv2.getTrackbarPos`), all
non-negative integers; the base variant uses only the first two. -/
structure Sliders where
  min_val : ℕ
  max_val : ℕ
  threshold : ℕ
  min_line_length : ℕ
  max_line_gap : ℕ
  rho_scaled : ℕ
deriving DecidableEq

/-- line_follower_main.py, line 124:
`config["rho"] = max(0.01, rho_scaled / 100.0)`.  Python's binary `max`
returns its first argument on ties, so `max(0.01, x)` is
`if x <= 0.01 then 0.01 else x`; the quotients are written with `mkRat`
(exact division, `mkRat n 100 = n / 100`) so the kernel can evaluate the
definition.  `publish_rho s = max (1/100) (s/100)` is proved below. -/
def publish_rho (rho_scaled : ℕ) : ℚ :=
  if mkRat rho_scaled 100 ≤ mkRat 1 100 then mkRat 1 100 else mkRat rho_scaled 100

/-- The critical section of Line_detection.py, lines 103-105: assign the
two trackbar readings into the shared config, unmodified. -/
def producer_update_base (c : JObj) (s : Sliders) : JObj :=
  insertKey (insertKey c Key.min_val (JVal.num s.min_val))
    Key.max_val (JVal.num s.max_val)

/-- The critical section of line_follower_main.py, lines 115-124: assign
the five integer trackbar readings unmodified and `rho` through
`publish_rho`. -/
def producer_update_ext (c : JObj) (s : Sliders) : JObj :=
  insertKey (insertKey (insertKey (insertKey (insertKey (insertKey c
    Key.min_val (JVal.num s.min_val))
    Key.max_val (JVal.num s.max_val))
    Key.hough_threshold (JVal.num s.threshold))
    Key.min_line_length (JVal.num s.min_line_length))
    Key.max_line_gap (JVal.num s.max_line_gap))
    Key.rho (JVal.num (publish_rho s.rho_scaled))

/-! ### Declared ranges of the parameter fields -/

/-- The stored value under `v` is a number in `[lo, hi]`. -/
def numInRange (v : Option JVal) (lo hi : ℚ) : Bool :=
  match v with
  | some (JVal.num q) => decide (lo ≤ q) && decide (q ≤ hi)
  | _ => false

/-- The stored value under `v` is a number `≥ lo`. -/
def numAtLeast (v : Option JVal) (lo : ℚ) : Bool :=
  match v with
  | some (JVal.num q) => decide (lo ≤ q)
  | _ => false

/-- The stored value under `v` is a positive number. -/
def numPos (v : Option JVal) : Bool :=
  match v with
  | some (JVal.num q) => decide (0 < q)
  | _ => false

/-- Every field of an extended-variant parameter set lies in its declared
range: `min_val, max_val ∈ [0,255]`, the integer Hough fields `≥ 0`,
`rho > 0`. -/
def inExtRange (j : JObj) : Bool :=
  numInRange (lookupKey j Key.min_val) 0 255 &&
  numInRange (lookupKey j Key.max_val) 0 255 &&
  numAtLeast (lookupKey j Key.hough_threshold) 0 &&
  numAtLeast (lookupKey j Key.min_line_length) 0 &&
  numAtLeast (lookupKey j Key.max_line_gap) 0 &&
  numPos (lookupKey j Key.rho)

/-- Both fields of a base-variant parameter set lie in `[0, 255]`. -/
def inBaseRange (j : JObj) : Bool :=
  numInRange (lookupKey j Key.min_val) 0 255 &&
  numInRange (lookupKey j Key.max_val) 0 255

/-! ### Shared parameter set: lock-protected access history

Every access to the shared config in the source is a whole critical
section: the producer assigns all fields inside one `with config_lock:`
block, the consumer reads all fields inside one `with config_lock:` block.
The lock makes these blocks atomic, so the history of accesses is a
sequence of complete updates and complete snapshots. -/

/-- One guarded access to the shared parameter set: a producer critical
section publishing the whole record `j`, or a consumer critical section
reading the whole record and obtaining `j`. -/
inductive ConfigOp where
  | update (j : JObj)
  | snapshot (j : JObj)
deriving DecidableEq

/-- An access history is valid from current state `st` when every snapshot
in it returns the state left by the latest preceding update (or `st`). -/
def validTrace (st : JObj) : List ConfigOp → Bool
  | [] => true
  | ConfigOp.update j :: rest => validTrace j rest
  | ConfigOp.snapshot j :: rest => decide (j = st) && validTrace st rest

/-! ### Frame hand-off queue (`queue.Queue()`, unbounded FIFO) -/

/-- Camera frames; their pixel content is irrelevant to the hand-off, so
frames are identified by an index. -/
abbrev Frame := ℕ

/-- The queue buffer together with the history of pushed and popped
frames. -/
structure QState where
  buffer : List Frame
  pushed : List Frame
  popped : List Frame
deriving DecidableEq

def emptyQ : QState := ⟨[], [], []⟩

/-- `frame_queue.put(frame)`: enqueue at the tail; `queue.Queue()` is
unbounded, so the call always succeeds and never blocks. -/
def qPush (s : QState) (f : Frame) : QState :=
  ⟨s.buffer ++ [f], s.pushed ++ [f], s.popped⟩

/-- The consumer's `if not frame_queue.empty(): frame_queue.get()`:
dequeue from the head when non-empty. -/
def qTryPop (s : QState) : QState × Option Frame :=
  match s.buffer with
  | [] => (s, none)
  | f :: rest => (⟨rest, s.pushed, s.popped ++ [f]⟩, some f)

/-- One queue access by either thread. -/
inductive QOp where
  | push (f : Frame)
  | tryPop

/-- Run a history of queue accesses. -/
def runQ (s : QState) : List QOp → QState
  | [] => s
  | QOp.push f :: rest => runQ (qPush s f) rest
  | QOp.tryPop :: rest => runQ (qTryPop s).1 rest

/-! ### The two threads

Both variants share this control skeleton exactly (Line_detection.py
lines 45-73 and 94-110; line_follower_main.py lines 48-79 and 107-128);
only the body of the producer's publishing step differs, so the
environment carries it as a function.  Each micro-step below performs at
most one access to shared state (`running`, the queue, the config), which
is the granularity at which the lock / the interpreter makes accesses
atomic, and the two threads interleave these micro-steps arbitrarily. -/

/-- Producer (main loop) program counter.
`pCheck` = the `while frame_processor.running` test; `pRead` =
`camera.read()`; `pPush f` = `frame_queue.put(frame)`; `pUpdate` = the
`with config_lock:` publishing block (followed by `cv2.waitKey(1)`);
`pDone` = after the loop. -/
inductive PPC where
  | pCheck
  | pRead
  | pPush (f : Frame)
  | pUpdate
  | pDone
deriving DecidableEq

/-- Consumer (`FrameProcessor.run`) program counter.
`cCheck` = the `while self.running` test; `cPoll` = the
`frame_queue.empty()` test; `cPop` = `frame_queue.get()`; `cProc` = the
processing of the popped frame ending in the `cv2.waitKey(1)` quit poll;
`cDone` = after the loop. -/
inductive CPC where
  | cCheck
  | cPoll
  | cPop
  | cProc
  | cDone
deriving DecidableEq

/-- The external collaborators: the camera's successive `read()` results
(`none` = falsy `ret`), the successive quit-key polls, and the producer's
publishing step (instantiated with `producer_update_ext` or
`producer_update_base` applied to the current trackbar readings). -/
structure Env where
  cam : ℕ → Option Frame
  quit : ℕ → Bool
  publish : ℕ → JObj → JObj

/-- Joint state of the two threads and the shared data. -/
structure Sys where
  running : Bool
  ppc : PPC
  cpc : CPC
  q : QState
  config : JObj
  camIdx : ℕ
  pubIdx : ℕ
  quitIdx : ℕ

/-- One producer micro-step.  Note the modelled bug-for-bug fidelity at
`pRead`: on a failed read the source prints and `break`s — it does not
write `running`. -/
def stepP (e : Env) (s : Sys) : Sys :=
  match s.ppc with
  | PPC.pCheck =>
      if s.running then { s with ppc := PPC.pRead } else { s with ppc := PPC.pDone }
  | PPC.pRead =>
      match e.cam s.camIdx with
      | none => { s with ppc := PPC.pDone, camIdx := s.camIdx + 1 }
      | some f => { s with ppc := PPC.pPush f, camIdx := s.camIdx + 1 }
  | PPC.pPush f => { s with ppc := PPC.pUpdate, q := qPush s.q f }
  | PPC.pUpdate =>
      { s with ppc := PPC.pCheck, config := e.publish s.pubIdx s.config,
               pubIdx := s.pubIdx + 1 }
  | PPC.pDone => s

/-- One consumer micro-step.  The quit key is polled only at the end of
processing a popped frame (`cv2.waitKey(1)` inside the non-empty branch);
on quit the consumer sets `running := false` and breaks. -/
def stepC (e : Env) (s : Sys) : Sys :=
  match s.cpc with
  | CPC.cCheck =>
      if s.running then { s with cpc := CPC.cPoll } else { s with cpc := CPC.cDone }
  | CPC.cPoll =>
      if s.q.buffer = [] then { s with cpc := CPC.cCheck } else { s with cpc := CPC.cPop }
  | CPC.cPop => { s with cpc := CPC.cProc, q := (qTryPop s.q).1 }
  | CPC.cProc =>
      if e.quit s.quitIdx then
        { s with running := false, cpc := CPC.cDone, quitIdx := s.quitIdx + 1 }
      else
        { s with cpc := CPC.cCheck, quitIdx := s.quitIdx + 1 }
  | CPC.cDone => s

/-- Thread identifier for the interleaving schedule. -/
inductive Tid where
  | prod
  | cons

def stepT (e : Env) (s : Sys) : Tid → Sys
  | Tid.prod => stepP e s
  | Tid.cons => stepC e s

/-- Run the two-thread system under an arbitrary interleaving schedule. -/
def runSys (e : Env) (s : Sys) : List Tid → Sys
  | [] => s
  | t :: rest => runSys e (stepT e s t) rest

/-- State right after `frame_processor.start()`: flag true, both threads
at their loop tests, queue empty, shared config as loaded. -/
def initSys (c : JObj) : Sys :=
  ⟨true, PPC.pCheck, CPC.cCheck, emptyQ, c, 0, 0, 0⟩

/-! ### main -/

/-- Externally visible actions of `main` around the pipeline run. -/
inductive MEvent where
  | printCameraError
  | createThread
  | startThread
  | joinThread
  | saveConfig
deriving DecidableEq

/-- What `main` leaves behind: the actions it performed and the final
state of `config.json`. -/
structure MainResult where
  events : List MEvent
  file : FileState

/-- `main` of line_follower_main.py, at the granularity the claims need:
load the config, open the camera; on open failure print the error and
return at once (the persisted file untouched); on success create and start
the `FrameProcessor`, run the two loops under some interleaving, join,
and save the final shared config (the save is modelled as reached and
succeeding, which is the benign case for the properties stated about this
function).  The base variant's `main` has the identical shape with its own
`load` and `publish`, so the load function is a parameter. -/
def mainRun (load : FileState → JObj) (fs0 : FileState) (camOpens : Bool)
    (e : Env) (sched : List Tid) : MainResult :=
  let cfg := load fs0
  if camOpens then
    let s := runSys e (initSys cfg) sched
    { events := [MEvent.createThread, MEvent.startThread, MEvent.joinThread,
                 MEvent.saveConfig],
      file := FileState.content s.config }
  else
    { events := [MEvent.printCameraError], file := fs0 }

/-! ## Basic evaluation facts -/

example : base_valid default_config_base = true := by decide
example : hasAllKeys default_config_ext = true := by decide
example : inExtRange default_config_ext = true := by decide
example : publish_rho 0 = mkRat 1 100 := by decide

/-! ## Helper lemmas -/

theorem lookup_insertKey_self (j : JObj) (k : Key) (v : JVal) :
    lookupKey (insertKey j k v) k = some v := by
  induction j with
  | nil => simp [insertKey, lookupKey]
  | cons hd tl ih =>
      obtain ⟨k1, v1⟩ := hd
      by_cases h : k1 = k
      · simp [insertKey, h, lookupKey]
      · simp [insertKey, h, lookupKey, ih]

theorem lookup_insertKey_ne (j : JObj) (k k2 : Key) (v : JVal) (h : k2 ≠ k) :
    lookupKey (insertKey j k v) k2 = lookupKey j k2 := by
  induction j with
  | nil => simp [insertKey, lookupKey, Ne.symm h]
  | cons hd tl ih =>
      obtain ⟨k1, v1⟩ := hd
      by_cases h1 : k1 = k
      · subst h1
        simp [insertKey, lookupKey, Ne.symm h]
      · simp only [insertKey, if_neg h1, lookupKey]
        by_cases h2 : k1 = k2
        · simp [h2]
        · simp [h2, ih]

theorem publish_rho_eq_max (n : ℕ) :
    publish_rho n = max (1 / 100 : ℚ) ((n : ℚ) / 100) := by
  unfold publish_rho
  rw [Rat.mkRat_eq_div, Rat.mkRat_eq_div]
  push_cast
  rw [max_comm, max_def]

theorem publish_rho_lower (n : ℕ) : (1 / 100 : ℚ) ≤ publish_rho n := by
  rw [publish_rho_eq_max]
  exact le_max_left _ _

theorem producer_update_ext_lookups (c : JObj) (s : Sliders) :
    lookupKey (producer_update_ext c s) Key.min_val = some (JVal.num s.min_val) ∧
    lookupKey (producer_update_ext c s) Key.max_val = some (JVal.num s.max_val) ∧
    lookupKey (producer_update_ext c s) Key.hough_threshold = some (JVal.num s.threshold) ∧
    lookupKey (producer_update_ext c s) Key.min_line_length = some (JVal.num s.min_line_length) ∧
    lookupKey (producer_update_ext c s) Key.max_line_gap = some (JVal.num s.max_line_gap) ∧
    lookupKey (producer_update_ext c s) Key.rho = some (JVal.num (publish_rho s.rho_scaled)) := by
  unfold producer_update_ext
  refine ⟨?_, ?_, ?_, ?_, ?_, ?_⟩ <;>
    simp [lookup_insertKey_self, lookup_insertKey_ne]

theorem producer_update_base_lookups (c : JObj) (s : Sliders) :
    lookupKey (producer_update_base c s) Key.min_val = some (JVal.num s.min_val) ∧
    lookupKey (producer_update_base c s) Key.max_val = some (JVal.num s.max_val) := by
  unfold producer_update_base
  refine ⟨?_, ?_⟩ <;> simp [lookup_insertKey_self, lookup_insertKey_ne]

/-! ## Claims -/

/-- Claim C9: the rho value the producer of the extended variant publishes
on every iteration is `max(0.01, sliderValue/100)`, hence never below
`0.01` — in particular `publish_rho 0 = 0.01`, not `0` — even though the
rho slider ranges over the integers `0..1000`. -/
theorem rho_published_clamped (c : JObj) (s : Sliders) :
    lookupKey (producer_update_ext c s) Key.rho
      = some (JVal.num (publish_rho s.rho_scaled)) ∧
    publish_rho s.rho_scaled = max (1 / 100 : ℚ) ((s.rho_scaled : ℚ) / 100) ∧
    (1 / 100 : ℚ) ≤ publish_rho s.rho_scaled ∧
    publish_rho 0 = 1 / 100 := by
  refine ⟨(producer_update_ext_lookups c s).2.2.2.2.2, publish_rho_eq_max _,
    publish_rho_lower _, ?_⟩
  rw [publish_rho_eq_max]
  norm_num

/-- Claim C3, as amended: the producer performs no clamping — the integer
trackbar readings are published exactly as read, and only `rho` is
transformed, via `publish_rho`.  Whenever the readings lie within their
slider bounds (`min_val`, `max_val` ≤ 255; trackbar positions are
naturals), every field the producer publishes lies in its declared range,
in both variants. -/
theorem producer_publish_in_range :
    (∀ (c : JObj) (s : Sliders), s.min_val ≤ 255 → s.max_val ≤ 255 →
        inExtRange (producer_update_ext c s) = true) ∧
    (∀ (c : JObj) (s : Sliders), s.min_val ≤ 255 → s.max_val ≤ 255 →
        inBaseRange (producer_update_base c s) = true) := by
  have hband : ∀ n : ℕ, n ≤ 255 →
      numInRange (some (JVal.num (n : ℚ))) 0 255 = true := by
    intro n hn
    simp only [numInRange, Bool.and_eq_true, decide_eq_true_eq]
    exact ⟨by positivity, by exact_mod_cast hn⟩
  have hnn : ∀ n : ℕ, numAtLeast (some (JVal.num (n : ℚ))) 0 = true := by
    intro n
    simp only [numAtLeast, decide_eq_true_eq]
    positivity
  constructor
  · intro c s h1 h2
    obtain ⟨l1, l2, l3, l4, l5, l6⟩ := producer_update_ext_lookups c s
    have hrho : numPos (some (JVal.num (publish_rho s.rho_scaled))) = true := by
      simp only [numPos, decide_eq_true_eq]
      exact lt_of_lt_of_le (by norm_num) (publish_rho_lower _)
    simp only [inExtRange, l1, l2, l3, l4, l5, l6,
      hband s.min_val h1, hband s.max_val h2, hnn s.threshold,
      hnn s.min_line_length, hnn s.max_line_gap, hrho, Bool.and_self]
  · intro c s h1 h2
    obtain ⟨l1, l2⟩ := producer_update_base_lookups c s
    simp only [inBaseRange, l1, l2, hband s.min_val h1, hband s.max_val h2,
      Bool.and_self]

/-- Witness for `producer_publish_in_range` at one concrete trackbar
reading in each variant. -/
theorem producer_publish_in_range_witness :
    inExtRange (producer_update_ext default_config_ext ⟨3, 250, 60, 20, 7, 0⟩) = true ∧
    inBaseRange (producer_update_base default_config_base ⟨3, 250, 60, 20, 7, 0⟩) = true :=
  ⟨producer_publish_in_range.1 default_config_ext ⟨3, 250, 60, 20, 7, 0⟩
      (by decide) (by decide),
   producer_publish_in_range.2 default_config_base ⟨3, 250, 60, 20, 7, 0⟩
      (by decide) (by decide)⟩

/-- A persisted file for the extended variant with every required key
present but `min_val` far outside `[0, 255]`. -/
def jBad : JObj :=
  [(Key.min_val, JVal.num 999), (Key.max_val, JVal.num 255),
   (Key.hough_threshold, JVal.num 50), (Key.min_line_length, JVal.num 10),
   (Key.max_line_gap, JVal.num 5), (Key.rho, JVal.num 1)]

/-- Claim C3 counterexample: nothing establishes the claimed invariant at
startup.  With persisted file `jBad` the extended `load_config` hands the
out-of-range `min_val = 999` straight to the shared parameter set, and the
access history in which the consumer snapshots before the first producer
update is valid, so the consumer observably reads `min_val = 999 ∉
[0, 255]`. -/
theorem c3_unclamped_initial_observable :
    load_config_ext (FileState.content jBad) = jBad ∧
    validTrace (load_config_ext (FileState.content jBad)) [ConfigOp.snapshot jBad] = true ∧
    lookupKey jBad Key.min_val = some (JVal.num 999) ∧
    ¬ ((999 : ℚ) ≤ 255) ∧
    inExtRange jBad = false := by
  refine ⟨by decide, by decide, by decide, by decide, by decide⟩

/-- A persisted file with all extended-variant keys present and
`min_val = 999`, outside `[0, 255]`. -/
def j999 : JObj :=
  [(Key.min_val, JVal.num 999), (Key.max_val, JVal.num 0),
   (Key.hough_threshold, JVal.num 50), (Key.min_line_length, JVal.num 10),
   (Key.max_line_gap, JVal.num 5), (Key.rho, JVal.num 1)]

/-- Claim C2 counterexample: the extended `load_config` checks key
presence only, so a file whose `min_val = 999` is outside its declared
range `[0, 255]` is returned unchanged, not replaced by the hard-coded
defaults. -/
theorem c2_out_of_range_not_defaulted :
    lookupKey j999 Key.min_val = some (JVal.num 999) ∧
    ¬ ((999 : ℚ) ≤ 255) ∧
    load_config_ext (FileState.content j999) = j999 ∧
    load_config_ext (FileState.content j999) ≠ default_config_ext := by
  refine ⟨by decide, by decide, by decide, by decide⟩

/-- Claim C2, as amended: both variants are all-or-nothing — `load_config`
returns either exactly the hard-coded defaults or exactly the file's
content, never a partial merge — and a missing, unreadable or malformed
file yields the defaults in both variants.  The silently-defaulting cases
differ: the base variant also range-validates `min_val` and `max_val`
(any out-of-range or non-numeric or missing field yields full defaults),
while the extended variant validates key presence only, so a file with all
required keys present is returned as-is even when values are out of
range. -/
theorem load_config_all_or_nothing :
    (load_config_base FileState.absent = default_config_base) ∧
    (load_config_base FileState.unreadable = default_config_base) ∧
    (∀ j, base_valid j = false →
        load_config_base (FileState.content j) = default_config_base) ∧
    (∀ j, base_valid j = true → load_config_base (FileState.content j) = j) ∧
    (∀ j mn, lookupKey j Key.min_val = some (JVal.num mn) →
        ¬ (0 ≤ mn ∧ mn ≤ 255) →
        load_config_base (FileState.content j) = default_config_base) ∧
    (∀ j mx, lookupKey j Key.max_val = some (JVal.num mx) →
        ¬ (0 ≤ mx ∧ mx ≤ 255) →
        load_config_base (FileState.content j) = default_config_base) ∧
    (∀ fs, load_config_base fs = default_config_base ∨
        ∃ j, fs = FileState.content j ∧ load_config_base fs = j) ∧
    (load_config_ext FileState.absent = default_config_ext) ∧
    (load_config_ext FileState.unreadable = default_config_ext) ∧
    (∀ j, hasAllKeys j = false →
        load_config_ext (FileState.content j) = default_config_ext) ∧
    (∀ j, hasAllKeys j = true → load_config_ext (FileState.content j) = j) ∧
    (∀ fs, load_config_ext fs = default_config_ext ∨
        ∃ j, fs = FileState.content j ∧ load_config_ext fs = j) := by
  have hminf : ∀ j mn, lookupKey j Key.min_val = some (JVal.num mn) →
      ¬ (0 ≤ mn ∧ mn ≤ 255) → base_valid j = false := by
    intro j mn hmn hrange
    cases hmx : lookupKey j Key.max_val with
    | none => unfold base_valid; rw [hmn, hmx]
    | some v =>
        cases v with
        | other => unfold base_valid; rw [hmn, hmx]
        | num mx =>
            unfold base_valid
            rw [hmn, hmx]
            rcases not_and_or.mp hrange with h | h <;>
              simp [decide_eq_false h]
  have hmaxf : ∀ j mx, lookupKey j Key.max_val = some (JVal.num mx) →
      ¬ (0 ≤ mx ∧ mx ≤ 255) → base_valid j = false := by
    intro j mx hmx hrange
    cases hmn : lookupKey j Key.min_val with
    | none => unfold base_valid; rw [hmn, hmx]
    | some v =>
        cases v with
        | other => unfold base_valid; rw [hmn, hmx]
        | num mn =>
            unfold base_valid
            rw [hmn, hmx]
            rcases not_and_or.mp hrange with h | h <;>
              simp [decide_eq_false h]
  refine ⟨rfl, rfl, ?_, ?_, ?_, ?_, ?_, rfl, rfl, ?_, ?_, ?_⟩
  · intro j h
    simp [load_config_base, h]
  · intro j h
    simp [load_config_base, h]
  · intro j mn hmn hrange
    simp [load_config_base, hminf j mn hmn hrange]
  · intro j mx hmx hrange
    simp [load_config_base, hmaxf j mx hmx hrange]
  · intro fs
    cases fs with
    | absent => exact Or.inl rfl
    | unreadable => exact Or.inl rfl
    | content j =>
        by_cases h : base_valid j = true
        · exact Or.inr ⟨j, rfl, by simp [load_config_base, h]⟩
        · exact Or.inl (by simp [load_config_base, h])
  · intro j h
    simp [load_config_ext, h]
  · intro j h
    simp [load_config_ext, h]
  · intro fs
    cases fs with
    | absent => exact Or.inl rfl
    | unreadable => exact Or.inl rfl
    | content j =>
        by_cases h : hasAllKeys j = true
        · exact Or.inr ⟨j, rfl, by simp [load_config_ext, h]⟩
        · exact Or.inl (by simp [load_config_ext, h])

/-- Witness for `load_config_all_or_nothing`: the extended variant returns
the out-of-range file `j999` unchanged, the base variant rejects the same
file wholesale. -/
theorem load_config_all_or_nothing_witness :
    load_config_ext (FileState.content j999) = j999 ∧
    load_config_base (FileState.content j999) = default_config_base :=
  ⟨load_config_all_or_nothing.2.2.2.2.2.2.2.2.2.2.1 j999 (by decide),
   load_config_all_or_nothing.2.2.1 j999 (by decide)⟩

/-- A concrete message for a failing write. -/
def diskFull : String := "disk full"

/-- Claim C4 counterexample: `save_config` contains no `try`/`except`, so
a failing write surfaces to the caller as an uncaught exception instead of
being reported and swallowed, in both variants. -/
theorem c4_write_error_escapes :
    save_config_ext_run default_config_ext (WriteOutcome.failure diskFull)
      = Except.error diskFull ∧
    save_config_base_run 0 255 (WriteOutcome.failure diskFull)
      = Except.error diskFull :=
  ⟨rfl, rfl⟩

/-- Claim C4, as amended: `save_config` performs the write with no error
handling of its own, so every write failure propagates unchanged to the
caller as an exception (crashing `main` after the run), and only a
successful write persists the parameter values. -/
theorem save_config_error_propagates :
    (∀ (c : JObj) (m : String),
        save_config_ext_run c (WriteOutcome.failure m) = Except.error m) ∧
    (∀ (mn mx : ℚ) (m : String),
        save_config_base_run mn mx (WriteOutcome.failure m) = Except.error m) ∧
    (∀ c : JObj, save_config_ext_run c WriteOutcome.ok
        = Except.ok (FileState.content (save_config_ext c))) ∧
    (∀ mn mx : ℚ, save_config_base_run mn mx WriteOutcome.ok
        = Except.ok (FileState.content (save_config_base mn mx))) :=
  ⟨fun _ _ => rfl, fun _ _ _ => rfl, fun _ => rfl, fun _ _ => rfl⟩

/-- Claim C7: saving a ParameterSet whose fields are within their declared
ranges and loading it back yields every field value-identical — in
particular rho is recovered exactly, a fortiori within the 0.01 scaling
resolution (the file stores rho as a plain number; the ×100 scaling exists
only on the trackbar). -/
theorem save_load_roundtrip :
    (∀ mn mx : ℚ, 0 ≤ mn → mn ≤ 255 → 0 ≤ mx → mx ≤ 255 →
        load_config_base (FileState.content (save_config_base mn mx))
          = save_config_base mn mx ∧
        lookupKey (load_config_base (FileState.content (save_config_base mn mx)))
          Key.min_val = some (JVal.num mn) ∧
        lookupKey (load_config_base (FileState.content (save_config_base mn mx)))
          Key.max_val = some (JVal.num mx)) ∧
    (∀ c : JObj, inExtRange c = true →
        load_config_ext (FileState.content (save_config_ext c)) = c) ∧
    (∀ (c : JObj) (r : ℚ), inExtRange c = true →
        lookupKey c Key.rho = some (JVal.num r) →
        ∃ r2, lookupKey (load_config_ext (FileState.content (save_config_ext c)))
            Key.rho = some (JVal.num r2) ∧ |r2 - r| ≤ 1 / 100) := by
  have hsome1 : ∀ (v : Option JVal) (lo hi : ℚ), numInRange v lo hi = true →
      v.isSome = true := by
    intro v lo hi h
    cases v with
    | none => simp [numInRange] at h
    | some w => rfl
  have hsome2 : ∀ (v : Option JVal) (lo : ℚ), numAtLeast v lo = true →
      v.isSome = true := by
    intro v lo h
    cases v with
    | none => simp [numAtLeast] at h
    | some w => rfl
  have hsome3 : ∀ v : Option JVal, numPos v = true → v.isSome = true := by
    intro v h
    cases v with
    | none => simp [numPos] at h
    | some w => rfl
  have hkeys : ∀ c : JObj, inExtRange c = true → hasAllKeys c = true := by
    intro c h
    simp only [inExtRange, Bool.and_eq_true] at h
    obtain ⟨⟨⟨⟨⟨h1, h2⟩, h3⟩, h4⟩, h5⟩, h6⟩ := h
    simp only [hasAllKeys, extKeys, List.all_cons, List.all_nil, Bool.and_eq_true,
      Bool.and_true]
    exact ⟨hsome1 _ _ _ h1, hsome1 _ _ _ h2, hsome2 _ _ h3, hsome2 _ _ h4,
      hsome2 _ _ h5, hsome3 _ h6⟩
  have hextload : ∀ c : JObj, inExtRange c = true →
      load_config_ext (FileState.content (save_config_ext c)) = c := by
    intro c h
    simp [load_config_ext, save_config_ext, hkeys c h]
  refine ⟨?_, hextload, ?_⟩
  · intro mn mx h0 h1 h2 h3
    have hv : base_valid [(Key.min_val, JVal.num mn), (Key.max_val, JVal.num mx)]
        = true := by
      simp [base_valid, lookupKey, h0, h1, h2, h3]
    refine ⟨?_, ?_, ?_⟩ <;>
      simp [load_config_base, save_config_base, hv, lookupKey]
  · intro c r h hr
    refine ⟨r, ?_, by rw [sub_self, abs_zero]; norm_num⟩
    rw [hextload c h]
    exact hr

/-- Witness for `save_load_roundtrip`: the defaults of each variant are in
range and survive the round trip unchanged. -/
theorem save_load_roundtrip_witness :
    load_config_base (FileState.content (save_config_base 0 255))
      = save_config_base 0 255 ∧
    load_config_ext (FileState.content (save_config_ext default_config_ext))
      = default_config_ext :=
  ⟨(save_load_roundtrip.1 0 255 (by decide) (by decide) (by decide) (by decide)).1,
   save_load_roundtrip.2.1 default_config_ext (by decide)⟩

/-- Claim C5, as amended: the lock makes every whole-record update and
whole-record read atomic, so a valid access history never shows a torn
value — every snapshot equals, field for field, one complete record:
either the record the threads started from or one previously published by
a single producer update, never a mix of two different records. -/
theorem snapshot_not_torn (init j : JObj) (pre post : List ConfigOp)
    (hv : validTrace init (pre ++ ConfigOp.snapshot j :: post) = true) :
    j = init ∨ ConfigOp.update j ∈ pre := by
  induction pre generalizing init with
  | nil =>
      simp only [List.nil_append, validTrace, Bool.and_eq_true,
        decide_eq_true_eq] at hv
      exact Or.inl hv.1
  | cons op rest ih =>
      cases op with
      | update j2 =>
          have hv2 : validTrace j2 (rest ++ ConfigOp.snapshot j :: post) = true := by
            simpa [validTrace] using hv
          rcases ih j2 hv2 with h | h
          · exact Or.inr (by simp [h])
          · exact Or.inr (List.mem_cons_of_mem _ h)
      | snapshot j2 =>
          have hv2 : validTrace init (rest ++ ConfigOp.snapshot j :: post) = true := by
            simp only [List.cons_append, validTrace, Bool.and_eq_true] at hv
            exact hv.2
          rcases ih init hv2 with h | h
          · exact Or.inl h
          · exact Or.inr (List.mem_cons_of_mem _ h)

/-- Witness for `snapshot_not_torn` on a concrete two-access history. -/
theorem snapshot_not_torn_witness :
    default_config_base = default_config_ext ∨
    ConfigOp.update default_config_base ∈ [ConfigOp.update default_config_base] :=
  snapshot_not_torn default_config_ext default_config_base
    [ConfigOp.update default_config_base] [] (by decide)

/-- Claim C5 counterexample: the consumer can take its snapshot before the
producer has published anything (it pops the first frame, which the
producer pushes before its first update).  The one-access history in which
the snapshot returns the initial record is valid, yet no producer update
precedes it, so that snapshot does not equal a value previously passed to
an update. -/
theorem c5_snapshot_before_first_update :
    validTrace default_config_ext
      ([] ++ ConfigOp.snapshot default_config_ext :: []) = true ∧
    ¬ ∃ u : JObj, ConfigOp.update u ∈ ([] : List ConfigOp) := by
  refine ⟨by decide, ?_⟩
  rintro ⟨u, h⟩
  exact List.not_mem_nil _ h

/-- Claim C6: the hand-off queue is a lossless FIFO — at every point the
pushed history equals the popped history followed by the frames still
buffered, so the consumer pops exactly the pushed frames in push order
with no loss, duplication or reordering — and `put` on the unbounded
`queue.Queue()` always succeeds immediately (never blocks), while the
consumer's guarded `get` is non-blocking on an empty queue. -/
theorem queue_fifo_lossless (ops : List QOp) :
    (runQ emptyQ ops).pushed
      = (runQ emptyQ ops).popped ++ (runQ emptyQ ops).buffer ∧
    (∀ (s : QState) (f : Frame), (qPush s f).pushed = s.pushed ++ [f] ∧
        (qPush s f).buffer = s.buffer ++ [f] ∧ (qPush s f).popped = s.popped) ∧
    (∀ s : QState, s.buffer = [] → (qTryPop s).2 = none ∧ (qTryPop s).1 = s) ∧
    (∀ (s : QState) (f : Frame) (tl : List Frame), s.buffer = f :: tl →
        (qTryPop s).2 = some f ∧ (qTryPop s).1.popped = s.popped ++ [f] ∧
        (qTryPop s).1.buffer = tl) := by
  have hinv : ∀ (ops2 : List QOp) (s : QState),
      s.pushed = s.popped ++ s.buffer →
      (runQ s ops2).pushed = (runQ s ops2).popped ++ (runQ s ops2).buffer := by
    intro ops2
    induction ops2 with
    | nil => intro s h; exact h
    | cons op rest ih =>
        intro s h
        cases op with
        | push f =>
            apply ih
            simp [qPush, h]
        | tryPop =>
            apply ih
            cases hb : s.buffer with
            | nil => simpa [qTryPop, hb] using h
            | cons f tl =>
                rw [hb] at h
                simp [qTryPop, hb, h]
  refine ⟨hinv ops emptyQ rfl, fun s f => ⟨rfl, rfl, rfl⟩, ?_, ?_⟩
  · intro s hb
    constructor <;> simp [qTryPop, hb]
  · intro s f tl hb
    refine ⟨?_, ?_, ?_⟩ <;> simp [qTryPop, hb]

/-- Witness for `queue_fifo_lossless` on a concrete access history: the
non-blocking-pop conjuncts applied at an empty and at a loaded queue. -/
theorem queue_fifo_lossless_witness :
    ((qTryPop emptyQ).2 = none ∧ (qTryPop emptyQ).1 = emptyQ) ∧
    (qTryPop (qPush emptyQ 7)).2 = some 7 := by
  refine ⟨(queue_fifo_lossless []).2.2.1 emptyQ rfl, ?_⟩
  exact ((queue_fifo_lossless []).2.2.2 (qPush emptyQ 7) 7 [] rfl).1

/-! ## Quiescence after the running flag goes false -/

/-- Number of pushes the producer can still perform before next consulting
the running flag (it is mid-iteration at `pRead`/`pPush`). -/
def pPot (s : Sys) : ℕ :=
  match s.ppc with
  | PPC.pRead => 1
  | PPC.pPush _ => 1
  | _ => 0

/-- Number of pops the consumer can still perform before next consulting
the running flag (it is mid-iteration at `cPoll`/`cPop`). -/
def cPot (s : Sys) : ℕ :=
  match s.cpc with
  | CPC.cPoll => 1
  | CPC.cPop => 1
  | _ => 0

theorem qTryPop_pushed (s : QState) : (qTryPop s).1.pushed = s.pushed := by
  cases hb : s.buffer <;> simp [qTryPop, hb]

theorem qTryPop_popped_le (s : QState) :
    (qTryPop s).1.popped.length ≤ s.popped.length + 1 := by
  cases hb : s.buffer <;> simp [qTryPop, hb]

theorem stepP_running (e : Env) (s : Sys) : (stepP e s).running = s.running := by
  cases hp : s.ppc
  case pCheck => by_cases h : s.running <;> simp [stepP, hp, h]
  case pRead => cases hc : e.cam s.camIdx <;> simp [stepP, hp, hc]
  all_goals simp [stepP, hp]

theorem stepC_running_false (e : Env) (s : Sys) (h : s.running = false) :
    (stepC e s).running = false := by
  cases hc : s.cpc
  case cCheck => simp [stepC, hc, h]
  case cPoll => by_cases hb : s.q.buffer = [] <;> simp [stepC, hc, hb, h]
  case cProc => by_cases hq : e.quit s.quitIdx <;> simp [stepC, hc, hq, h]
  all_goals simp [stepC, hc, h]

theorem stepT_running_false (e : Env) (s : Sys) (t : Tid) (h : s.running = false) :
    (stepT e s t).running = false := by
  cases t with
  | prod => rw [stepT, stepP_running]; exact h
  | cons => exact stepC_running_false e s h

theorem step_push_bound (e : Env) (s : Sys) (t : Tid) (h : s.running = false) :
    (stepT e s t).q.pushed.length + pPot (stepT e s t)
      ≤ s.q.pushed.length + pPot s := by
  cases t with
  | prod =>
      cases hp : s.ppc
      case pCheck => simp [stepT, stepP, hp, h, pPot]
      case pRead => cases hc : e.cam s.camIdx <;> simp [stepT, stepP, hp, hc, pPot]
      case pPush f => simp [stepT, stepP, hp, pPot, qPush]
      case pUpdate => simp [stepT, stepP, hp, pPot]
      case pDone => simp [stepT, stepP, hp, pPot]
  | cons =>
      have hppc : (stepC e s).ppc = s.ppc := by
        cases hc : s.cpc
        case cCheck => by_cases hr : s.running <;> simp [stepC, hc, hr]
        case cPoll => by_cases hb : s.q.buffer = [] <;> simp [stepC, hc, hb]
        case cProc => by_cases hq : e.quit s.quitIdx <;> simp [stepC, hc, hq]
        all_goals simp [stepC, hc]
      have hpush : (stepC e s).q.pushed = s.q.pushed := by
        cases hc : s.cpc
        case cCheck => by_cases hr : s.running <;> simp [stepC, hc, hr]
        case cPoll => by_cases hb : s.q.buffer = [] <;> simp [stepC, hc, hb]
        case cPop => simp [stepC, hc, qTryPop_pushed]
        case cProc => by_cases hq : e.quit s.quitIdx <;> simp [stepC, hc, hq]
        all_goals simp [stepC, hc]
      simp [stepT, pPot, hppc, hpush]

theorem step_pop_bound (e : Env) (s : Sys) (t : Tid) (h : s.running = false) :
    (stepT e s t).q.popped.length + cPot (stepT e s t)
      ≤ s.q.popped.length + cPot s := by
  cases t with
  | cons =>
      cases hc : s.cpc
      case cCheck => simp [stepT, stepC, hc, h, cPot]
      case cPoll => by_cases hb : s.q.buffer = [] <;> simp [stepT, stepC, hc, hb, cPot]
      case cPop =>
          have := qTryPop_popped_le s.q
          simp only [stepT, stepC, hc, cPot]
          omega
      case cProc => by_cases hq : e.quit s.quitIdx <;> simp [stepT, stepC, hc, hq, cPot]
      case cDone => simp [stepT, stepC, hc, cPot]
  | prod =>
      have hcpc : (stepP e s).cpc = s.cpc := by
        cases hp : s.ppc
        case pCheck => by_cases hr : s.running <;> simp [stepP, hp, hr]
        case pRead => cases hcam : e.cam s.camIdx <;> simp [stepP, hp, hcam]
        all_goals simp [stepP, hp]
      have hpop : (stepP e s).q.popped = s.q.popped := by
        cases hp : s.ppc
        case pCheck => by_cases hr : s.running <;> simp [stepP, hp, hr]
        case pRead => cases hcam : e.cam s.camIdx <;> simp [stepP, hp, hcam]
        case pPush f => simp [stepP, hp, qPush]
        all_goals simp [stepP, hp]
      simp [stepT, cPot, hcpc, hpop]

theorem runSys_quiesce (e : Env) (s : Sys) (sched : List Tid)
    (h : s.running = false) :
    (runSys e s sched).running = false ∧
    (runSys e s sched).q.pushed.length + pPot (runSys e s sched)
      ≤ s.q.pushed.length + pPot s ∧
    (runSys e s sched).q.popped.length + cPot (runSys e s sched)
      ≤ s.q.popped.length + cPot s := by
  induction sched generalizing s with
  | nil => exact ⟨h, le_refl _, le_refl _⟩
  | cons t rest ih =>
      have h2 := stepT_running_false e s t h
      obtain ⟨hr, hp, hc⟩ := ih (stepT e s t) h2
      exact ⟨hr, le_trans hp (step_push_bound e s t h),
        le_trans hc (step_pop_bound e s t h)⟩

theorem pPot_le_one (s : Sys) : pPot s ≤ 1 := by
  cases hp : s.ppc <;> simp [pPot, hp]

theorem cPot_le_one (s : Sys) : cPot s ≤ 1 := by
  cases hc : s.cpc <;> simp [cPot, hc]

theorem prod_stops_in_four (e : Env) (s : Sys) (h : s.running = false) :
    (stepP e (stepP e (stepP e (stepP e s)))).ppc = PPC.pDone := by
  cases hp : s.ppc
  case pCheck => simp [stepP, hp, h]
  case pRead => cases hc : e.cam s.camIdx <;> simp [stepP, hp, hc, h]
  case pPush f => simp [stepP, hp, h]
  case pUpdate => simp [stepP, hp, h]
  case pDone => simp [stepP, hp]

theorem cons_stops_in_four (e : Env) (s : Sys) (h : s.running = false) :
    (stepC e (stepC e (stepC e (stepC e s)))).cpc = CPC.cDone := by
  cases hc : s.cpc
  case cCheck => simp [stepC, hc, h]
  case cPoll =>
      by_cases hb : s.q.buffer = []
      · simp [stepC, hc, hb, h]
      · by_cases hq : e.quit s.quitIdx <;> simp [stepC, hc, hb, hq, h]
  case cPop => by_cases hq : e.quit s.quitIdx <;> simp [stepC, hc, hq, h]
  case cProc => by_cases hq : e.quit s.quitIdx <;> simp [stepC, hc, hq, h]
  case cDone => simp [stepC, hc]

theorem stepT_fix_done (e : Env) (s : Sys) (t : Tid) (hp : s.ppc = PPC.pDone)
    (hc : s.cpc = CPC.cDone) : stepT e s t = s := by
  cases t with
  | prod => simp [stepT, stepP, hp]
  | cons => simp [stepT, stepC, hc]

/-- Claim C8: once the shared RunningFlag is false — the consumer's quit
handler is the one writer that ever makes it false — it stays false, each
thread passes its loop test and terminates within the at most four
micro-steps of one remaining loop iteration, at most one more frame is
pushed and at most one more popped (the iteration already in flight), and
once both threads have left their loops no schedule performs any further
step at all. -/
theorem running_flag_stops_both (e : Env) (s : Sys) (h : s.running = false) :
    (∀ sched : List Tid,
        (runSys e s sched).running = false ∧
        (runSys e s sched).q.pushed.length ≤ s.q.pushed.length + 1 ∧
        (runSys e s sched).q.popped.length ≤ s.q.popped.length + 1) ∧
    (stepP e (stepP e (stepP e (stepP e s)))).ppc = PPC.pDone ∧
    (stepC e (stepC e (stepC e (stepC e s)))).cpc = CPC.cDone ∧
    (∀ sched : List Tid, s.ppc = PPC.pDone → s.cpc = CPC.cDone →
        runSys e s sched = s) := by
  refine ⟨?_, prod_stops_in_four e s h, cons_stops_in_four e s h, ?_⟩
  · intro sched
    obtain ⟨hr, hpush, hpop⟩ := runSys_quiesce e s sched h
    have h1 := pPot_le_one s
    have h2 := cPot_le_one s
    exact ⟨hr, by omega, by omega⟩
  · intro sched hp hc
    induction sched with
    | nil => rfl
    | cons t rest ih => rw [runSys, stepT_fix_done e s t hp hc]; exact ih

/-- A run in which frames keep arriving and the quit key is never pressed,
used to witness the quiescence theorem from a concrete stopped state. -/
def quiesceEnv : Env := ⟨fun _ => some 0, fun _ => false, fun _ c => c⟩

/-- A concrete mid-iteration state whose running flag is already false. -/
def quiesceSys : Sys :=
  { running := false, ppc := PPC.pRead, cpc := CPC.cPoll,
    q := qPush emptyQ 5, config := default_config_ext,
    camIdx := 1, pubIdx := 0, quitIdx := 0 }

/-- Witness for `running_flag_stops_both` at a concrete environment,
state and schedule. -/
theorem running_flag_stops_both_witness :
    ((runSys quiesceEnv quiesceSys [Tid.prod, Tid.cons]).running = false ∧
      (runSys quiesceEnv quiesceSys [Tid.prod, Tid.cons]).q.pushed.length
        ≤ quiesceSys.q.pushed.length + 1 ∧
      (runSys quiesceEnv quiesceSys [Tid.prod, Tid.cons]).q.popped.length
        ≤ quiesceSys.q.popped.length + 1) ∧
    (stepP quiesceEnv (stepP quiesceEnv (stepP quiesceEnv
        (stepP quiesceEnv quiesceSys)))).ppc = PPC.pDone :=
  ⟨(running_flag_stops_both quiesceEnv quiesceSys rfl).1 [Tid.prod, Tid.cons],
   (running_flag_stops_both quiesceEnv quiesceSys rfl).2.1⟩

/-! ## Producer failure path -/

/-- The run in which the very first camera read fails (`ret` falsy) and
the operator never presses the quit key. -/
def camFailEnv : Env := ⟨fun _ => none, fun _ => false, fun _ c => c⟩

/-- Claim C1 (the code contradicts it): when `camera.read` fails, the
producer prints and merely `break`s — `frame_processor.stop()` is never
called — so after the producer's two micro-steps it has left its loop
with the shared running flag still true; the consumer, whose quit poll
sits inside the non-empty-queue branch and whose queue is empty, then
cycles between its loop test and the empty poll forever and never reaches
`cDone`, so `frame_processor.join()` never returns and the shutdown the
claim describes never completes. -/
theorem capture_failure_leaves_flag_true :
    (runSys camFailEnv (initSys default_config_ext) [Tid.prod, Tid.prod]).ppc
      = PPC.pDone ∧
    (runSys camFailEnv (initSys default_config_ext) [Tid.prod, Tid.prod]).running
      = true ∧
    ∀ n : ℕ,
      ((stepC camFailEnv)^[n]
          (runSys camFailEnv (initSys default_config_ext) [Tid.prod, Tid.prod])).cpc
        ≠ CPC.cDone := by
  refine ⟨rfl, rfl, ?_⟩
  have hstep : ∀ t : Sys,
      (t.cpc = CPC.cCheck ∨ t.cpc = CPC.cPoll) ∧ t.running = true ∧ t.q.buffer = [] →
      ((stepC camFailEnv t).cpc = CPC.cCheck ∨ (stepC camFailEnv t).cpc = CPC.cPoll) ∧
        (stepC camFailEnv t).running = true ∧ (stepC camFailEnv t).q.buffer = [] := by
    rintro t ⟨hc | hc, hr, hb⟩
    · exact ⟨Or.inr (by simp [stepC, hc, hr]), by simp [stepC, hc, hr],
        by simp [stepC, hc, hr, hb]⟩
    · exact ⟨Or.inl (by simp [stepC, hc, hb]), by simp [stepC, hc, hb, hr],
        by simp [stepC, hc, hb]⟩
  have hall : ∀ n : ℕ,
      (((stepC camFailEnv)^[n]
          (runSys camFailEnv (initSys default_config_ext) [Tid.prod, Tid.prod])).cpc
          = CPC.cCheck ∨
       ((stepC camFailEnv)^[n]
          (runSys camFailEnv (initSys default_config_ext) [Tid.prod, Tid.prod])).cpc
          = CPC.cPoll) ∧
      ((stepC camFailEnv)^[n]
          (runSys camFailEnv (initSys default_config_ext) [Tid.prod, Tid.prod])).running
          = true ∧
      ((stepC camFailEnv)^[n]
          (runSys camFailEnv (initSys default_config_ext) [Tid.prod, Tid.prod])).q.buffer
          = [] := by
    intro n
    induction n with
    | zero => exact ⟨Or.inl rfl, rfl, rfl⟩
    | succ n ih =>
        rw [Function.iterate_succ_apply']
        exact hstep _ ih
  intro n
  rcases (hall n).1 with h | h <;> simp [h]

/-! ## main and the startup failure path -/

/-- Claim C10: if the camera fails to open, `main` prints the error and
returns at once — the FrameProcessor is neither created nor started,
`save_config` is never called, and the persisted configuration file is
left exactly as it was.  The load function is a parameter, so the
statement covers both variants. -/
theorem camera_open_failure_changes_nothing (load : FileState → JObj)
    (fs0 : FileState) (e : Env) (sched : List Tid) :
    (mainRun load fs0 false e sched).events = [MEvent.printCameraError] ∧
    MEvent.createThread ∉ (mainRun load fs0 false e sched).events ∧
    MEvent.startThread ∉ (mainRun load fs0 false e sched).events ∧
    MEvent.saveConfig ∉ (mainRun load fs0 false e sched).events ∧
    (mainRun load fs0 false e sched).file = fs0 := by
  refine ⟨rfl, ?_, ?_, ?_, rfl⟩ <;> simp [mainRun]

end LineFollower
